import Mathlib

set_option maxRecDepth 8000

/-!
Verification of the tool-call protocol layer of `phi/llm/anthropic/claude.py`:
the request builders (`invoke`, `invoke_stream`), the streaming delta machine of
`response_stream`, the tool-call extraction of `response`/`response_stream`, the
dispatch loop, and the `<function_results>` envelope.

Texts are modelled as `List Char`; string literals are written `"...".toList`.
Helpers that the source imports from `phi.utils.tools` (whose file is not among
the sources) are modelled from the spec and marked as such.
-/

/-- Texts (Python `str`) are lists of characters. -/
abbrev Text := List Char

/-- Auxiliary for `countSub`, with fuel bounding the recursion depth
(`fuel = s.length` at the top call always suffices, since each step consumes
at least one character). -/
def countSubAux (pat : Text) : Nat → Text → Nat
  | 0, _ => 0
  | _ + 1, [] => 0
  | fuel + 1, c :: rest =>
    if pat ≠ [] ∧ pat.isPrefixOf (c :: rest) then
      countSubAux pat fuel ((c :: rest).drop pat.length) + 1
    else
      countSubAux pat fuel rest

/-- Python `s.count(pat)`: number of non-overlapping occurrences of `pat` in `s`,
scanning left to right and skipping the matched region after each match. -/
def countSub (pat s : Text) : Nat := countSubAux pat s.length s

/-- Python `pat in s` (for the non-empty literal patterns used by the source). -/
def containsSub (pat s : Text) : Bool := decide (0 < countSub pat s)

/-- Auxiliary for `splitOnSub`, with fuel as in `countSubAux`. -/
def splitOnAux (pat : Text) : Nat → Text → List Text
  | 0, s => [s]
  | _ + 1, [] => [[]]
  | fuel + 1, c :: rest =>
    if pat ≠ [] ∧ pat.isPrefixOf (c :: rest) then
      [] :: splitOnAux pat fuel ((c :: rest).drop pat.length)
    else
      match splitOnAux pat fuel rest with
      | [] => [[c]]
      | h :: t => (c :: h) :: t

/-- Python `s.split(pat)`: fragments of `s` between non-overlapping occurrences
of `pat`, the separators removed. -/
def splitOnSub (pat s : Text) : List Text := splitOnAux pat s.length s

/-- Text after the first occurrence of `pat` in `s`, `none` if absent. -/
def afterFirst (pat : Text) : Text → Option Text
  | [] => none
  | c :: rest =>
    if pat ≠ [] ∧ pat.isPrefixOf (c :: rest) then some ((c :: rest).drop pat.length)
    else afterFirst pat rest

/-- Text before the first occurrence of `pat` in `s`, `none` if absent. -/
def beforeFirst (pat : Text) : Text → Option Text
  | [] => none
  | c :: rest =>
    if pat ≠ [] ∧ pat.isPrefixOf (c :: rest) then some []
    else (beforeFirst pat rest).map (c :: ·)

/-- Text strictly between the first `openTag` and the following `closeTag`. -/
def textBetween (openTag closeTag s : Text) : Option Text :=
  (afterFirst openTag s).bind (beforeFirst closeTag)

/-- Python `s.strip()`: remove whitespace from both ends. -/
def stripText (s : Text) : Text :=
  ((s.dropWhile Char.isWhitespace).reverse.dropWhile Char.isWhitespace).reverse

/-- Python `stream_delta.strip().endswith(">")`. -/
def stripEndsWithGt (s : Text) : Bool := decide ((stripText s).getLast? = some '>')

/-- The literal `"<function"` compared against whole deltas by the delta loop. -/
def functionTok : Text := "<function".toList

/-- The literal `">"` compared against whole deltas by the delta loop. -/
def gtTok : Text := ">".toList

/-- The literal `"<invoke"` searched for inside deltas and counted in the
accumulated text by the delta loop. -/
def invokeOpenMark : Text := "<invoke".toList

/-- The literal `"</invoke>"` counted in the accumulated text by the delta
loop. -/
def invokeCloseTag : Text := "</invoke>".toList

/-- The stream-parse state of `Claude.response_stream` (the five local variables
of the delta loop, `claude.py` lines 238-242). -/
structure StreamState where
  acc : Text
  response_is_function_call : Bool
  tool_calls_in_response : Nat
  is_closing_tool_call : Bool
  function_call_flag : Bool
deriving Repr, DecidableEq

/-- Initial state of the delta loop of `Claude.response_stream`. -/
def initStreamState : StreamState :=
  { acc := [], response_is_function_call := false, tool_calls_in_response := 0,
    is_closing_tool_call := false, function_call_flag := false }

/-- One iteration of the delta loop of `Claude.response_stream`
(`claude.py` lines 247-277): update the five state variables and return the
list of chunks yielded to the caller for this delta (`[]` or `[delta]`). -/
def response_stream_step (s : StreamState) (delta : Text) : StreamState × List Text :=
  let acc := s.acc ++ delta
  let fcFlag := if delta = functionTok then true else s.function_call_flag
  let fcFlag := if delta = gtTok then false else fcFlag
  if fcFlag then
    ({ acc := acc, response_is_function_call := s.response_is_function_call,
       tool_calls_in_response := s.tool_calls_in_response,
       is_closing_tool_call := s.is_closing_tool_call,
       function_call_flag := fcFlag }, [])
  else
    let det : Bool := containsSub invokeOpenMark delta &&
      decide (countSub invokeCloseTag acc < countSub invokeOpenMark acc)
    let rifc := if det then true else s.response_is_function_call
    let tc := if det then s.tool_calls_in_response + 1 else s.tool_calls_in_response
    let closeNow : Bool := rifc &&
      decide (countSub invokeOpenMark acc = countSub invokeCloseTag acc)
    let rifc := if closeNow then false else rifc
    let icl := if closeNow then true else s.is_closing_tool_call
    if rifc then
      ({ acc := acc, response_is_function_call := rifc, tool_calls_in_response := tc,
         is_closing_tool_call := icl, function_call_flag := fcFlag }, [])
    else
      let icl := if icl && stripEndsWithGt delta then false else icl
      ({ acc := acc, response_is_function_call := rifc, tool_calls_in_response := tc,
         is_closing_tool_call := icl, function_call_flag := fcFlag }, [delta])

/-- The whole delta loop of `Claude.response_stream`: fold `response_stream_step`
over the deltas, collecting the yielded chunks in order. -/
def response_stream_run (deltas : List Text) : StreamState × List Text :=
  deltas.foldl
    (fun p d =>
      let r := response_stream_step p.1 d
      (r.1, p.2 ++ r.2))
    (initStreamState, [])

example :
    (response_stream_run ["Hi".toList, " there".toList]).2
      = ["Hi".toList, " there".toList] := by decide

example :
    (response_stream_run ["<invoke>".toList, "x".toList, "</invoke>".toList]).2
      = ["</invoke>".toList] := by decide

example :
    (response_stream_run ["<invoke>".toList, "x".toList, "</invoke>".toList]).1.tool_calls_in_response
      = 1 := by decide

/-- A tool call recorded on the assistant message (`claude.py` lines 158-163 /
314-319): the `function` dict with its `name` and optional `arguments`.  The
JSON encoding applied by `json.dumps` is modelled as the argument mapping
itself. -/
structure ToolCall where
  name : Option Text
  arguments : Option (List (Text × Text))
deriving Repr, DecidableEq

/-- A conversation message (`phi.llm.message.Message`, as used by `claude.py`):
role, optional content, optional tool calls, optional originating tool name. -/
structure Message where
  role : Text
  content : Option Text := none
  tool_calls : Option (List ToolCall) := none
  tool_call_name : Option Text := none
deriving Repr, DecidableEq

/-- Output of the Tag Extractor for one `<invoke>` fragment. -/
structure ParsedInvocation where
  tool_name : Option Text
  parameters : Option (List (Text × Text))
deriving Repr, DecidableEq

/-- Auxiliary for `parse_params`, with fuel bounding the recursion
(`fuel = s.length` suffices: each parsed parameter consumes characters). -/
def parse_params_aux : Nat → Text → List (Text × Text)
  | 0, _ => []
  | fuel + 1, s =>
    match afterFirst "<".toList s with
    | none => []
    | some rest1 =>
      match beforeFirst ">".toList rest1, afterFirst ">".toList rest1 with
      | some tag, some rest2 =>
        match beforeFirst ("</".toList ++ tag ++ ">".toList) rest2,
              afterFirst ("</".toList ++ tag ++ ">".toList) rest2 with
        | some v, some rest3 => (tag, v) :: parse_params_aux fuel rest3
        | _, _ => []
      | _, _ => []

/-- Modelled from the spec: parameter extraction inside the Tag Extractor
(`phi.utils.tools`, not among the sources).  "Parameters are extracted by tag
name → text content"; an unclosed parameter tag ends the extraction rather than
failing. -/
def parse_params (s : Text) : List (Text × Text) := parse_params_aux s.length s

/-- Modelled from the spec: the Tag Extractor `extract_tool_from_xml`
(imported by the source from `phi.utils.tools`, whose file is not among the
sources).  Given one fragment holding an `<invoke>` block, it produces a
`ParsedInvocation`; "malformed or partially-present fragments (missing tool
name, unclosed parameter tags) yield a ParsedInvocation with absent fields
rather than failing". -/
def extract_tool_from_xml (fragment : Text) : ParsedInvocation :=
  { tool_name := textBetween "<tool_name>".toList "</tool_name>".toList fragment,
    parameters :=
      (textBetween "<parameters>".toList "</parameters>".toList fragment).map parse_params }

/-- Tool-call extraction of the non-streaming `Claude.response`
(`claude.py` lines 138-163): if the raw completion text contains
`<function_calls>`, split it on `</invoke>` and, for every fragment containing
`<invoke>`, run the Tag Extractor and append the resulting tool call. -/
def response_tool_calls (response_content : Text) : List ToolCall :=
  if containsSub "<function_calls>".toList response_content then
    (splitOnSub "</invoke>".toList response_content).foldl
      (fun tool_calls tool_call_response =>
        if containsSub "<invoke>".toList tool_call_response then
          let tool_call_dict := extract_tool_from_xml tool_call_response
          tool_calls ++ [{ name := tool_call_dict.tool_name,
                           arguments := tool_call_dict.parameters }]
        else tool_calls)
      []
  else []

/-- Closing-tag re-append of the non-streaming `Claude.response`
(`claude.py` lines 139-144): whenever the completion contains
`<function_calls>`, append `</function_calls>` to the assistant content. -/
def response_content_closed (response_content : Text) : Text :=
  if containsSub "<function_calls>".toList response_content then
    response_content ++ "</function_calls>".toList
  else response_content

/-- Closing-tag append of `Claude.response_stream` after the feed ends
(`claude.py` lines 283-284): append `</function_calls>` exactly when the
accumulated text contains `<function_calls>` exactly once. -/
def response_stream_content_closed (assistant_message_content : Text) : Text :=
  if countSub "<function_calls>".toList assistant_message_content = 1 then
    assistant_message_content ++ "</function_calls>".toList
  else assistant_message_content

/-- Tool-call extraction of `Claude.response_stream` (`claude.py` lines
294-319): if at least one invocation was counted during streaming and the
(closed) accumulated text contains `<invoke>` and `</invoke>`, split on
`</invoke>`, re-append the separator to every fragment not equal to the last,
and extract a tool call from every fragment containing a complete pair. -/
def response_stream_tool_calls (tool_calls_in_response : Nat)
    (assistant_message_content : Text) : List ToolCall :=
  if 0 < tool_calls_in_response ∧
      containsSub "<invoke>".toList assistant_message_content = true ∧
      containsSub "</invoke>".toList assistant_message_content = true then
    let tool_call_responses := splitOnSub "</invoke>".toList assistant_message_content
    tool_call_responses.foldl
      (fun tool_calls frag =>
        let frag := if frag ≠ tool_call_responses.getLastD [] then
            frag ++ "</invoke>".toList
          else frag
        if containsSub "<invoke>".toList frag = true ∧
            containsSub "</invoke>".toList frag = true then
          let tool_call_dict := extract_tool_from_xml frag
          tool_calls ++ [{ name := tool_call_dict.tool_name,
                           arguments := tool_call_dict.parameters }]
        else tool_calls)
      []
  else []

/-- The assistant message synthesized by `Claude.response_stream` after the feed
ends (`claude.py` lines 287-324): content is the closed accumulated text, and
tool calls are attached when extraction produced at least one. -/
def response_stream_assistant_message (tool_calls_in_response : Nat)
    (assistant_message_content : Text) : Message :=
  let tcs := response_stream_tool_calls tool_calls_in_response assistant_message_content
  { role := "assistant".toList,
    content := some assistant_message_content,
    tool_calls := if tcs ≠ [] then some tcs else none }

/-- Modelled from the spec: a registry entry of the function registry
collaborator (`self.functions`, provided by `phi.llm.base.LLM`, not among the
sources).  `validate` returns the validation-error text for the given
arguments, if any; `run` is the synchronous execution producing the
stdout-equivalent textual result. -/
structure FunctionDef where
  validate : Option (List (Text × Text)) → Option Text
  run : Option (List (Text × Text)) → Text

/-- A resolved, executable function call (`phi.tools.function.FunctionCall`):
name, optional resolution/validation error, and the textual result its
execution produces. -/
structure FunctionCall where
  name : Text
  error : Option Text
  result : Text
deriving Repr, DecidableEq

/-- Modelled from the spec: `get_function_call_for_tool_call`
(`phi.utils.tools`, not among the sources).  "Unknown function name ⇒ failure";
an absent name likewise resolves to nothing; "a resolvable call whose argument
validation fails" carries the specific validation error text. -/
def get_function_call_for_tool_call (functions : Text → Option FunctionDef)
    (tool_call : ToolCall) : Option FunctionCall :=
  match tool_call.name with
  | none => none
  | some n =>
    match functions n with
    | none => none
    | some fd =>
      some { name := n, error := fd.validate tool_call.arguments,
             result := fd.run tool_call.arguments }

/-- The dispatch loop shared by `Claude.response` and `Claude.response_stream`
(`claude.py` lines 187-196 / 342-351): resolve each tool call; an unresolvable
call appends the user message "Could not find function to call.", a call with a
validation error appends that error text, and only cleanly resolved calls are
collected to run.  Returns (appended failure messages, calls to run). -/
def resolve_tool_calls (functions : Text → Option FunctionDef)
    (tool_calls : List ToolCall) : List Message × List FunctionCall :=
  tool_calls.foldl
    (fun p tool_call =>
      match get_function_call_for_tool_call functions tool_call with
      | none =>
        (p.1 ++ [{ role := "user".toList,
                   content := some "Could not find function to call.".toList }], p.2)
      | some fc =>
        match fc.error with
        | some err => (p.1 ++ [{ role := "user".toList, content := some err }], p.2)
        | none => (p.1, p.2 ++ [fc]))
    ([], [])

/-- Modelled from the spec: `run_function_calls` (`phi.llm.base.LLM`, not among
the sources).  It executes the resolved calls in order and returns one result
`Message` per call, with the given role, the call's textual result as content,
and `tool_call_name` set to the originating tool name. -/
def run_function_calls (role : Text) (function_calls : List FunctionCall) :
    List Message :=
  function_calls.map fun fc =>
    { role := role, content := some fc.result, tool_call_name := some fc.name }

/-- The `<function_results>` envelope built by `Claude.response` and
`Claude.response_stream` (`claude.py` lines 209-216 / 365-372): one `<result>`
block per function-call result, in order, wrapped by
`<function_results>` ... `</function_results>`. -/
def fc_responses (function_call_results : List Message) : Text :=
  (function_call_results.foldl
    (fun acc m =>
      acc ++ "<result>".toList
          ++ "<tool_name>".toList ++ m.tool_call_name.getD [] ++ "</tool_name>".toList
          ++ "<stdout>".toList ++ m.content.getD [] ++ "</stdout>".toList
          ++ "</result>".toList)
    "<function_results>".toList) ++ "</function_results>".toList

/-- A value of a request parameter in `api_kwargs` (`Dict[str, Any]`). -/
inductive ParamValue where
  | int (n : Int)
  | rat (q : Rat)
  | strList (l : List Text)
  | str (s : Text)
deriving Repr, DecidableEq

/-- The configuration fields of the `Claude` class (`claude.py` lines 24-38).
Floating-point fields are modelled as rationals. -/
structure Claude where
  model : Text := "claude-3-opus-20240229".toList
  max_tokens : Option Int := some 1024
  temperature : Option Rat := none
  stop_sequences : Option (List Text) := none
  top_p : Option Rat := none
  top_k : Option Int := none
  request_params : Option (List (Text × ParamValue)) := none

/-- Python `dict.update`: existing keys are overwritten in place, new keys are
appended in order. -/
def dict_update (base upd : List (Text × ParamValue)) : List (Text × ParamValue) :=
  upd.foldl
    (fun b kv =>
      if b.any (fun p => p.1 == kv.1) then
        b.map (fun p => if p.1 == kv.1 then kv else p)
      else b ++ [kv])
    base

/-- `Claude.api_kwargs` (`claude.py` lines 50-65): the request-parameter dict
assembled from the truthy configuration fields.  (Python truthiness: `None`,
`0`, `0.0`, and empty collections are falsy.) -/
def api_kwargs (c : Claude) : List (Text × ParamValue) :=
  let ps : List (Text × ParamValue) := []
  let ps := match c.max_tokens with
    | some n => if n ≠ 0 then ps ++ [("max_tokens".toList, ParamValue.int n)] else ps
    | none => ps
  let ps := match c.temperature with
    | some q => if q ≠ 0 then ps ++ [("temperature".toList, ParamValue.rat q)] else ps
    | none => ps
  let ps := match c.stop_sequences with
    | some l => if l ≠ [] then ps ++ [("stop_sequences".toList, ParamValue.strList l)] else ps
    | none => ps
  let ps := match c.top_p with
    | some q => if q ≠ 0 then ps ++ [("top_p".toList, ParamValue.rat q)] else ps
    | none => ps
  let ps := match c.top_k with
    | some n => if n ≠ 0 then ps ++ [("top_k".toList, ParamValue.int n)] else ps
    | none => ps
  let ps := match c.request_params with
    | some rp => if rp ≠ [] then dict_update ps rp else ps
    | none => ps
  ps

/-- The message-partition loop shared by `Claude.invoke` and
`Claude.invoke_stream` (`claude.py` lines 76-80 / 98-102): each message with
role `system` overwrites the `system_message` variable (so the last one wins),
every other message is appended to `user_assistant_message` in order. -/
def partition_messages (messages : List Message) : Option Message × List Message :=
  messages.foldl
    (fun p m =>
      if m.role = "system".toList then (some m, p.2) else (p.1, p.2 ++ [m]))
    (none, [])

/-- The request handed to the backend by `Claude.invoke` / `Claude.invoke_stream`
(`claude.py` lines 82-92 / 104-114). -/
structure ApiRequest where
  messages : List (Text × Option Text)
  system : Option Text
  model : Text
  max_tokens : Option Int
  stop_sequences : List Text
deriving Repr, DecidableEq

/-- `Claude.invoke` (`claude.py` lines 72-92), up to the backend call: build the
request from the partitioned messages.  `none` models the Python
`UnboundLocalError` raised while reading `system_message.content` — before any
backend call — when no message had role `system`. -/
def invoke (c : Claude) (messages : List Message) : Option ApiRequest :=
  match partition_messages messages with
  | (none, _) => none
  | (some system_message, user_assistant_message) =>
    some { messages := user_assistant_message.map (fun m => (m.role, m.content)),
           system := system_message.content,
           model := c.model,
           max_tokens := c.max_tokens,
           stop_sequences := ["</function_calls>".toList] }

/-- `Claude.invoke_stream` (`claude.py` lines 94-114), up to the backend call:
identical request construction to `invoke`. -/
def invoke_stream (c : Claude) (messages : List Message) : Option ApiRequest :=
  match partition_messages messages with
  | (none, _) => none
  | (some system_message, user_assistant_message) =>
    some { messages := user_assistant_message.map (fun m => (m.role, m.content)),
           system := system_message.content,
           model := c.model,
           max_tokens := c.max_tokens,
           stop_sequences := ["</function_calls>".toList] }

theorem countSubAux_pos_occurs (pat : Text) :
    ∀ (fuel : Nat) (s : Text), 0 < countSubAux pat fuel s → pat <:+: s := by
  intro fuel
  induction fuel with
  | zero => intro s h; simp [countSubAux] at h
  | succ n ih =>
    intro s h
    match s with
    | [] => simp [countSubAux] at h
    | c :: rest =>
      rw [countSubAux] at h
      split at h
      · rename_i hcond
        exact (List.isPrefixOf_iff_prefix.mp hcond.2).isInfix
      · exact List.infix_cons (ih rest h)

theorem containsSub_occurs {pat s : Text} (h : containsSub pat s = true) : pat <:+: s := by
  have hp : 0 < countSub pat s := by
    have := of_decide_eq_true h
    exact this
  exact countSubAux_pos_occurs pat s.length s hp

theorem containsSub_eq_false {pat s : Text} (h : ¬ pat <:+: s) :
    containsSub pat s = false := by
  cases hc : containsSub pat s with
  | false => rfl
  | true => exact absurd (containsSub_occurs hc) h

theorem foldl_append_flatten {α β : Type} (g : α → List β) :
    ∀ (l : List α) (init : List β),
      l.foldl (fun acc x => acc ++ g x) init = init ++ (l.map g).flatten := by
  intro l
  induction l with
  | nil => simp
  | cons x xs ih =>
    intro init
    simp only [List.foldl_cons, List.map_cons, List.flatten_cons]
    rw [ih, List.append_assoc]

/-- The failure messages one tool call contributes to the dispatch loop. -/
def resolveMsgOf (functions : Text → Option FunctionDef) (tool_call : ToolCall) :
    List Message :=
  match get_function_call_for_tool_call functions tool_call with
  | none => [{ role := "user".toList,
               content := some "Could not find function to call.".toList }]
  | some fc =>
    match fc.error with
    | some err => [{ role := "user".toList, content := some err }]
    | none => []

/-- The run-list entry one tool call contributes to the dispatch loop. -/
def resolveRunOf (functions : Text → Option FunctionDef) (tool_call : ToolCall) :
    Option FunctionCall :=
  match get_function_call_for_tool_call functions tool_call with
  | none => none
  | some fc =>
    match fc.error with
    | some _ => none
    | none => some fc

theorem resolve_tool_calls_aux (functions : Text → Option FunctionDef) :
    ∀ (tool_calls : List ToolCall) (ms : List Message) (fs : List FunctionCall),
      tool_calls.foldl
        (fun p tool_call =>
          match get_function_call_for_tool_call functions tool_call with
          | none =>
            (p.1 ++ [{ role := "user".toList,
                       content := some "Could not find function to call.".toList }], p.2)
          | some fc =>
            match fc.error with
            | some err => (p.1 ++ [{ role := "user".toList, content := some err }], p.2)
            | none => (p.1, p.2 ++ [fc]))
        (ms, fs)
      = (ms ++ (tool_calls.map (resolveMsgOf functions)).flatten,
         fs ++ tool_calls.filterMap (resolveRunOf functions)) := by
  intro tool_calls
  induction tool_calls with
  | nil => intro ms fs; simp
  | cons tc rest ih =>
    intro ms fs
    simp only [List.foldl_cons, List.map_cons, List.flatten_cons, List.filterMap_cons]
    cases hg : get_function_call_for_tool_call functions tc with
    | none =>
      simp only [hg, resolveMsgOf, resolveRunOf]
      rw [ih]
      simp [List.append_assoc]
    | some fc =>
      cases he : fc.error with
      | none =>
        simp only [hg, he, resolveMsgOf, resolveRunOf]
        rw [ih]
        simp [List.append_assoc]
      | some err =>
        simp only [hg, he, resolveMsgOf, resolveRunOf]
        rw [ih]
        simp [List.append_assoc]

theorem resolve_tool_calls_eq (functions : Text → Option FunctionDef)
    (tool_calls : List ToolCall) :
    resolve_tool_calls functions tool_calls
      = ((tool_calls.map (resolveMsgOf functions)).flatten,
         tool_calls.filterMap (resolveRunOf functions)) := by
  have h := resolve_tool_calls_aux functions tool_calls [] []
  simpa [resolve_tool_calls] using h

theorem partition_messages_aux :
    ∀ (messages : List Message) (o : Option Message) (l : List Message),
      messages.foldl
        (fun p m =>
          if m.role = "system".toList then (some m, p.2) else (p.1, p.2 ++ [m]))
        (o, l)
      = ((match (messages.filter fun m => decide (m.role = "system".toList)).getLast? with
          | some m => some m
          | none => o),
         l ++ messages.filter fun m => decide (¬ m.role = "system".toList)) := by
  intro messages
  induction messages using List.reverseRecOn with
  | nil => simp
  | append_singleton rest m ih =>
    intro o l
    rw [List.foldl_append]
    rw [ih o l]
    by_cases hm : m.role = "system".toList
    · simp only [List.foldl_cons, List.foldl_nil, hm, if_pos, List.filter_append]
      simp [hm, List.getLast?_concat]
    · have hm' : ¬ m.role = ['s', 'y', 's', 't', 'e', 'm'] := by simpa using hm
      simp only [List.foldl_cons, List.foldl_nil, List.filter_append]
      simp [hm, hm', List.append_assoc, Option.none_or]

theorem partition_messages_eq (messages : List Message) :
    partition_messages messages
      = ((match (messages.filter fun m => decide (m.role = "system".toList)).getLast? with
          | some m => some m
          | none => none),
         messages.filter fun m => decide (¬ m.role = "system".toList)) := by
  have h := partition_messages_aux messages none []
  simpa [partition_messages] using h

theorem response_stream_run_plain_aux :
    ∀ (deltas : List Text) (s : StreamState) (out : List Text),
      s.function_call_flag = false →
      s.response_is_function_call = false →
      s.is_closing_tool_call = false →
      (∀ d ∈ deltas, containsSub invokeOpenMark d = false ∧ d ≠ functionTok) →
      (deltas.foldl
        (fun p d =>
          let r := response_stream_step p.1 d
          (r.1, p.2 ++ r.2)) (s, out)).2 = out ++ deltas := by
  intro deltas
  induction deltas with
  | nil => intro s out _ _ _ _; simp
  | cons d rest ih =>
    intro s out hf hr hi hall
    obtain ⟨hc, hne⟩ := hall d (List.mem_cons_self d rest)
    have hrest : ∀ x ∈ rest, containsSub invokeOpenMark x = false ∧ x ≠ functionTok :=
      fun x hx => hall x (List.mem_cons_of_mem d hx)
    have hstep : response_stream_step s d
        = ({ acc := s.acc ++ d, response_is_function_call := false,
             tool_calls_in_response := s.tool_calls_in_response,
             is_closing_tool_call := false, function_call_flag := false }, [d]) := by
      simp [response_stream_step, hne, hc, hf, hr, hi]
    rw [List.foldl_cons]
    simp only [hstep]
    rw [ih _ _ rfl rfl rfl hrest]
    simp

/-- Claim C4: for every streamed response whose text contains no tool-call
markup (neither `<invoke` nor `<function` occurs in the concatenation of the
deltas), the chunks yielded by `response_stream` are exactly the deltas, in
order and unaltered, so their concatenation reproduces the full accumulated
response text. -/
theorem claude_C4 (deltas : List Text)
    (h1 : ¬ invokeOpenMark <:+: deltas.flatten)
    (h2 : ¬ functionTok <:+: deltas.flatten) :
    (response_stream_run deltas).2 = deltas ∧
    (response_stream_run deltas).2.flatten = deltas.flatten := by
  have hall : ∀ d ∈ deltas, containsSub invokeOpenMark d = false ∧ d ≠ functionTok := by
    intro d hd
    constructor
    · refine containsSub_eq_false ?_
      intro hinf
      exact h1 (hinf.trans (List.infix_of_mem_flatten hd))
    · intro hdeq
      apply h2
      rw [← hdeq]
      exact List.infix_of_mem_flatten hd
  have h := response_stream_run_plain_aux deltas initStreamState [] rfl rfl rfl hall
  have hout : (response_stream_run deltas).2 = deltas := by
    simpa [response_stream_run] using h
  exact ⟨hout, by rw [hout]⟩

theorem claude_C4_witness :
    (¬ invokeOpenMark <:+: (["Hello ".toList, "world".toList] : List Text).flatten) ∧
    (¬ functionTok <:+: (["Hello ".toList, "world".toList] : List Text).flatten) ∧
    (response_stream_run ["Hello ".toList, "world".toList]).2
      = ["Hello ".toList, "world".toList] :=
  ⟨by decide, by decide,
   (claude_C4 ["Hello ".toList, "world".toList] (by decide) (by decide)).1⟩

/-- Delta partition of the text `<invoke>x</invoke>` that delivers the
`<invoke` marker inside a single delta. -/
def wholeTagDeltas : List Text := ["<invoke>".toList, "x".toList, "</invoke>".toList]

/-- Delta partition of the same text `<invoke>x</invoke>` that splits the
`<invoke` marker across two consecutive deltas. -/
def splitTagDeltas : List Text :=
  ["<inv".toList, "oke>".toList, "x".toList, "</invoke>".toList]

/-- Claim C1 (counterexample): two delta partitions of the same response text
for which `response_stream` yields different user-visible output and detects a
different number of invocations — detection and suppression are not
chunking-independent. -/
theorem claude_C1_counterexample :
    wholeTagDeltas.flatten = splitTagDeltas.flatten ∧
    ¬ ((response_stream_run wholeTagDeltas).2.flatten
          = (response_stream_run splitTagDeltas).2.flatten ∧
       (response_stream_run wholeTagDeltas).1.tool_calls_in_response
          = (response_stream_run splitTagDeltas).1.tool_calls_in_response) := by
  decide

/-- Claim C1 (amended): detection is chunking-dependent.  On the partition
delivering `<invoke` inside one delta the invocation is detected (counter 1)
and the deltas up to the `</invoke>` completion are suppressed; on the
partition splitting `<invoke` across two consecutive deltas nothing is detected
(counter 0) and every delta — markup included — is yielded, so the two
partitions of the same text produce different visible output. -/
theorem claude_C1 :
    wholeTagDeltas.flatten = splitTagDeltas.flatten ∧
    (response_stream_run wholeTagDeltas).1.tool_calls_in_response = 1 ∧
    (response_stream_run wholeTagDeltas).2 = [invokeCloseTag] ∧
    (response_stream_run splitTagDeltas).1.tool_calls_in_response = 0 ∧
    (response_stream_run splitTagDeltas).2 = splitTagDeltas := by
  decide

/-- A stream of deltas forming a prose segment, one complete invocation block,
then another prose segment. -/
def proseInvocationProseDeltas : List Text :=
  ["Hello ".toList, "<function_calls>\n".toList, "<invoke>".toList,
   "<tool_name>add</tool_name>".toList, "</invoke>".toList, "\nBye".toList]

/-- Claim C3 (counterexample): on a prose / invocation-block / prose stream,
invocation-block markup deltas (the `<function_calls>` wrapper delta and the
delta completing `</invoke>`) are present in the yielded chunks, so the yielded
chunks are not exactly the prose deltas. -/
theorem claude_C3_counterexample :
    "<function_calls>\n".toList ∈ (response_stream_run proseInvocationProseDeltas).2 ∧
    invokeCloseTag ∈ (response_stream_run proseInvocationProseDeltas).2 ∧
    (response_stream_run proseInvocationProseDeltas).2
      ≠ ["Hello ".toList, "\nBye".toList] := by
  decide

/-- Claim C3 (amended): on such a stream only the deltas from the one where the
`<invoke` open is detected up to (but excluding) the delta completing
`</invoke>` are suppressed; the yielded chunks are the two prose deltas
together with the `<function_calls>` wrapper delta and the closing
`</invoke>` delta. -/
theorem claude_C3 :
    (response_stream_run proseInvocationProseDeltas).2
      = ["Hello ".toList, "<function_calls>\n".toList, invokeCloseTag, "\nBye".toList] ∧
    (response_stream_run proseInvocationProseDeltas).1.tool_calls_in_response = 1 := by
  decide

/-- A message list holding two system messages (contents `A` and `B`) and one
user message. -/
def twoSystemMessages : List Message :=
  [{ role := "system".toList, content := some "A".toList },
   { role := "system".toList, content := some "B".toList },
   { role := "user".toList, content := some "hi".toList }]

/-- Claim C2 (counterexample): with two system messages, the system prompt
passed to the backend is the content of the second (last) one, not of the first
one as claimed. -/
theorem claude_C2_counterexample :
    (invoke {} twoSystemMessages).map (fun r => r.system) = some (some "B".toList) ∧
    some (some "B".toList) ≠ some (some "A".toList) := by
  decide

/-- Claim C2 (amended): for every input list containing at least one system
message, `invoke` (and `invoke_stream`) passes the LAST system message found,
in list order, as the separate system-prompt parameter, and all non-system
messages, in their original order, as the message list. -/
theorem claude_C2 (c : Claude) (messages : List Message) (sm : Message)
    (h : (messages.filter fun m => decide (m.role = "system".toList)).getLast? = some sm) :
    invoke c messages
      = some { messages := (messages.filter fun m => decide (¬ m.role = "system".toList)).map
                  (fun m => (m.role, m.content)),
               system := sm.content, model := c.model, max_tokens := c.max_tokens,
               stop_sequences := ["</function_calls>".toList] } ∧
    invoke_stream c messages = invoke c messages := by
  have hp := partition_messages_eq messages
  constructor
  · simp only [invoke, hp, h]
  · rfl

theorem claude_C2_witness :
    ((twoSystemMessages.filter fun m => decide (m.role = "system".toList)).getLast?
        = some { role := "system".toList, content := some "B".toList }) ∧
    invoke {} twoSystemMessages
      = some { messages := (twoSystemMessages.filter fun m =>
                  decide (¬ m.role = "system".toList)).map (fun m => (m.role, m.content)),
               system := some "B".toList, model := ({} : Claude).model,
               max_tokens := ({} : Claude).max_tokens,
               stop_sequences := ["</function_calls>".toList] } :=
  ⟨by decide,
   (claude_C2 {} twoSystemMessages
      { role := "system".toList, content := some "B".toList } (by decide)).1⟩

/-- Claim C9: `invoke` and `invoke_stream` fail (the modelled
`UnboundLocalError`, returned as `none` before any backend request is built)
exactly when the input list contains no message with role `system`; under the
precondition that a system message is present, the failure branch is
unreachable. -/
theorem claude_C9 (c : Claude) (messages : List Message) :
    (invoke c messages = none ↔ ∀ m ∈ messages, ¬ m.role = "system".toList) ∧
    (invoke_stream c messages = none ↔ ∀ m ∈ messages, ¬ m.role = "system".toList) ∧
    ((∃ m ∈ messages, m.role = "system".toList) → (invoke c messages).isSome = true) := by
  have hp := partition_messages_eq messages
  have key : invoke c messages = none ↔ ∀ m ∈ messages, ¬ m.role = "system".toList := by
    cases hgl : (messages.filter fun m => decide (m.role = "system".toList)).getLast? with
    | none =>
      have hnil : messages.filter (fun m => decide (m.role = "system".toList)) = [] :=
        List.getLast?_eq_none_iff.mp hgl
      have hforall : ∀ m ∈ messages, ¬ m.role = "system".toList := by
        intro m hm
        have := List.filter_eq_nil_iff.mp hnil m hm
        simpa using this
      have hi : invoke c messages = none := by
        unfold invoke
        rw [hp, hgl]
      exact iff_of_true hi hforall
    | some m =>
      have hmem : m ∈ messages.filter (fun m => decide (m.role = "system".toList)) :=
        List.mem_of_mem_getLast? hgl
      have hmem' : m ∈ messages ∧ m.role = "system".toList := by
        have := List.mem_filter.mp hmem
        exact ⟨this.1, by simpa using this.2⟩
      have hi : invoke c messages
          = some { messages := (messages.filter fun x =>
                      decide (¬ x.role = "system".toList)).map (fun x => (x.role, x.content)),
                   system := m.content, model := c.model, max_tokens := c.max_tokens,
                   stop_sequences := ["</function_calls>".toList] } := by
        unfold invoke
        rw [hp, hgl]
      constructor
      · intro hnone
        rw [hi] at hnone
        exact absurd hnone (by simp)
      · intro hall
        exact absurd hmem'.2 (hall m hmem'.1)
  have hstream : invoke_stream c messages = invoke c messages := rfl
  refine ⟨key, by rw [hstream]; exact key, ?_⟩
  rintro ⟨m, hm, hrole⟩
  cases hinv : invoke c messages with
  | some r => simp
  | none => exact absurd hrole ((key.mp hinv) m hm)

theorem claude_C9_witness :
    (∀ m ∈ ([{ role := "user".toList, content := some "hi".toList }] : List Message),
        ¬ m.role = "system".toList) ∧
    invoke {} [{ role := "user".toList, content := some "hi".toList }] = none ∧
    (∃ m ∈ twoSystemMessages, m.role = "system".toList) ∧
    (invoke {} twoSystemMessages).isSome = true :=
  ⟨by decide,
   (claude_C9 {} [{ role := "user".toList, content := some "hi".toList }]).1.mpr (by decide),
   by decide,
   (claude_C9 {} twoSystemMessages).2.2 (by decide)⟩

/-- Claim C10: the backend request built by `invoke` and `invoke_stream`
depends only on the non-system messages, the system prompt, the model
identifier and `max_tokens`, and always carries the fixed stop-sequence list
`["</function_calls>"]`; two configurations agreeing on `model` and
`max_tokens` (and differing arbitrarily in `temperature`, `top_p`, `top_k`,
`stop_sequences`, `request_params`) produce identical requests — `api_kwargs`
is never consumed by either invocation path. -/
theorem claude_C10 (c1 c2 : Claude) (messages : List Message)
    (hm : c1.model = c2.model) (ht : c1.max_tokens = c2.max_tokens) :
    invoke c1 messages = invoke c2 messages ∧
    invoke_stream c1 messages = invoke_stream c2 messages ∧
    ∀ r, invoke c1 messages = some r →
      r.stop_sequences = ["</function_calls>".toList] ∧
      r.model = c1.model ∧ r.max_tokens = c1.max_tokens ∧
      r.messages = (partition_messages messages).2.map (fun m => (m.role, m.content)) := by
  have h1 : invoke c1 messages = invoke c2 messages := by
    unfold invoke
    rcases partition_messages messages with ⟨o, l⟩
    cases o <;> simp [hm, ht]
  have h2 : invoke_stream c1 messages = invoke_stream c2 messages := by
    have e1 : invoke_stream c1 messages = invoke c1 messages := rfl
    have e2 : invoke_stream c2 messages = invoke c2 messages := rfl
    rw [e1, e2, h1]
  refine ⟨h1, h2, ?_⟩
  intro r hr
  unfold invoke at hr
  rcases hp : partition_messages messages with ⟨o, l⟩
  rw [hp] at hr
  cases o with
  | none => simp at hr
  | some sm =>
    simp only [Option.some.injEq] at hr
    rw [← hr]
    exact ⟨rfl, rfl, rfl, rfl⟩

/-- A configuration keeping all defaults. -/
def claudeConfigA : Claude := {}

/-- A configuration differing from the defaults only in `top_k` and
`stop_sequences`. -/
def claudeConfigB : Claude :=
  { top_k := some 5, stop_sequences := some ["stop".toList] }

/-- A message list with one system and one user message. -/
def sampleMessages : List Message :=
  [{ role := "system".toList, content := some "sys".toList },
   { role := "user".toList, content := some "hi".toList }]

theorem claude_C10_witness :
    claudeConfigA.model = claudeConfigB.model ∧
    claudeConfigA.max_tokens = claudeConfigB.max_tokens ∧
    api_kwargs claudeConfigA ≠ api_kwargs claudeConfigB ∧
    invoke claudeConfigA sampleMessages = invoke claudeConfigB sampleMessages :=
  ⟨rfl, rfl, by decide,
   (claude_C10 claudeConfigA claudeConfigB sampleMessages rfl rfl).1⟩

/-- A streamed response consisting of one bare invocation without the
`<function_calls>` wrapper. -/
def bareInvokeDeltas : List Text :=
  ["<invoke>".toList, "<tool_name>a</tool_name>".toList, "</invoke>".toList]

/-- Claim C5 (counterexample): a streamed bare `<invoke>` block (no
`<function_calls>` wrapper) reaches dispatch with non-null `tool_calls` while
the assistant content contains no `<function_calls>` markup at all — the
opening-tag count is 0, not 1, so no closing tag is appended and the content
holds no closed invocation-markup region. -/
theorem claude_C5_counterexample :
    (response_stream_assistant_message
        (response_stream_run bareInvokeDeltas).1.tool_calls_in_response
        (response_stream_content_closed (response_stream_run bareInvokeDeltas).1.acc)).tool_calls
      ≠ none ∧
    containsSub "<function_calls>".toList
        (response_stream_content_closed (response_stream_run bareInvokeDeltas).1.acc) = false ∧
    containsSub "</function_calls>".toList
        (response_stream_content_closed (response_stream_run bareInvokeDeltas).1.acc) = false := by
  decide

/-- Claim C5 (amended): the streaming path appends the closing tag exactly when
the accumulated text contains `<function_calls>` exactly once, and the
non-streaming path whenever `<function_calls>` is present; under those
conditions the content reaching dispatch contains the opening tag and ends with
the appended closing tag (closed invocation markup).  A streamed invocation
emitted without the wrapper (counterexample) reaches dispatch with `tool_calls`
set but no wrapper markup. -/
theorem claude_C5 (acc raw : Text)
    (h1 : countSub "<function_calls>".toList acc = 1)
    (h2 : containsSub "<function_calls>".toList raw = true) :
    response_stream_content_closed acc = acc ++ "</function_calls>".toList ∧
    "<function_calls>".toList <:+: response_stream_content_closed acc ∧
    "</function_calls>".toList <:+ response_stream_content_closed acc ∧
    response_content_closed raw = raw ++ "</function_calls>".toList ∧
    "<function_calls>".toList <:+: response_content_closed raw ∧
    "</function_calls>".toList <:+ response_content_closed raw := by
  have hacc : response_stream_content_closed acc = acc ++ "</function_calls>".toList := by
    unfold response_stream_content_closed
    rw [if_pos h1]
  have hraw : response_content_closed raw = raw ++ "</function_calls>".toList := by
    unfold response_content_closed
    rw [if_pos h2]
  have hai : "<function_calls>".toList <:+: acc := by
    apply countSubAux_pos_occurs
    have : 0 < countSub "<function_calls>".toList acc := by omega
    simpa [countSub] using this
  have hri : "<function_calls>".toList <:+: raw := containsSub_occurs h2
  refine ⟨hacc, ?_, ?_, hraw, ?_, ?_⟩
  · rw [hacc]
    exact hai.trans (List.prefix_append acc "</function_calls>".toList).isInfix
  · rw [hacc]
    exact List.suffix_append acc "</function_calls>".toList
  · rw [hraw]
    exact hri.trans (List.prefix_append raw "</function_calls>".toList).isInfix
  · rw [hraw]
    exact List.suffix_append raw "</function_calls>".toList

theorem claude_C5_witness :
    countSub "<function_calls>".toList "x<function_calls><invoke>y".toList = 1 ∧
    containsSub "<function_calls>".toList "c<function_calls>d".toList = true ∧
    response_stream_content_closed "x<function_calls><invoke>y".toList
      = "x<function_calls><invoke>y".toList ++ "</function_calls>".toList ∧
    response_content_closed "c<function_calls>d".toList
      = "c<function_calls>d".toList ++ "</function_calls>".toList :=
  ⟨by decide, by decide,
   (claude_C5 "x<function_calls><invoke>y".toList "c<function_calls>d".toList
      (by decide) (by decide)).1,
   (claude_C5 "x<function_calls><invoke>y".toList "c<function_calls>d".toList
      (by decide) (by decide)).2.2.2.1⟩

/-- A completion whose single invocation fragment lacks a `<tool_name>` tag. -/
def missingNameContent : Text :=
  "<function_calls>\n<invoke><parameters></parameters></invoke>".toList

/-- Claim C6 (counterexample): for a fragment whose `ParsedInvocation` has
absent `tool_name`, the non-streaming extraction loop still appends a
`ToolCall` (with absent name) to the assistant message's tool calls, contrary
to the claim that no `ToolCall` is appended for that fragment. -/
theorem claude_C6_counterexample :
    (extract_tool_from_xml
        "<function_calls>\n<invoke><parameters></parameters>".toList).tool_name = none ∧
    response_tool_calls missingNameContent ≠ [] := by
  decide

/-- Claim C6 (amended): an invocation fragment with absent `tool_name` still
produces a `ToolCall`, appended with `name` absent; that call then fails
resolution (no `FunctionCall` is collected to execute, and the user message
"Could not find function to call." is appended), so the turn continues without
aborting. -/
theorem claude_C6 :
    response_tool_calls missingNameContent = [{ name := none, arguments := some [] }] ∧
    ∀ functions : Text → Option FunctionDef,
      resolve_tool_calls functions (response_tool_calls missingNameContent)
        = ([{ role := "user".toList,
              content := some "Could not find function to call.".toList }], []) := by
  have hex : response_tool_calls missingNameContent
      = [{ name := none, arguments := some [] }] := by decide
  refine ⟨hex, ?_⟩
  intro functions
  rw [hex, resolve_tool_calls_eq]
  simp [resolveMsgOf, resolveRunOf, get_function_call_for_tool_call]

/-- Claim C7: in the dispatch loop, a tool call that does not resolve (unknown
or absent function name) contributes the user message "Could not find function
to call." and nothing to the run list; a resolvable call whose validation fails
contributes the specific error text as a user message and nothing to the run
list; the executed list is exactly the `resolveRunOf` filter, which keeps only
cleanly resolved calls. -/
theorem claude_C7 (functions : Text → Option FunctionDef) (tool_calls : List ToolCall)
    (tc : ToolCall) (h : tc ∈ tool_calls) :
    (get_function_call_for_tool_call functions tc = none →
        ({ role := "user".toList,
           content := some "Could not find function to call.".toList } : Message)
          ∈ (resolve_tool_calls functions tool_calls).1 ∧
        resolveRunOf functions tc = none) ∧
    (∀ fc err, get_function_call_for_tool_call functions tc = some fc →
        fc.error = some err →
        ({ role := "user".toList, content := some err } : Message)
          ∈ (resolve_tool_calls functions tool_calls).1 ∧
        resolveRunOf functions tc = none) ∧
    (resolve_tool_calls functions tool_calls).2
      = tool_calls.filterMap (resolveRunOf functions) := by
  rw [resolve_tool_calls_eq]
  refine ⟨?_, ?_, rfl⟩
  · intro hg
    constructor
    · apply List.mem_flatten.mpr
      refine ⟨resolveMsgOf functions tc, List.mem_map_of_mem _ h, ?_⟩
      simp [resolveMsgOf, hg]
    · simp [resolveRunOf, hg]
  · intro fc err hg he
    constructor
    · apply List.mem_flatten.mpr
      refine ⟨resolveMsgOf functions tc, List.mem_map_of_mem _ h, ?_⟩
      simp [resolveMsgOf, hg, he]
    · simp [resolveRunOf, hg, he]

/-- A registry holding exactly the function `add`, which validates anything and
returns `3`. -/
def registryW : Text → Option FunctionDef := fun n =>
  if n = "add".toList then
    some { validate := fun _ => none, run := fun _ => "3".toList }
  else none

/-- A tool call referencing a name absent from `registryW`. -/
def unknownToolCall : ToolCall := { name := some "nope".toList, arguments := none }

theorem claude_C7_witness :
    unknownToolCall ∈ [unknownToolCall] ∧
    get_function_call_for_tool_call registryW unknownToolCall = none ∧
    ({ role := "user".toList,
       content := some "Could not find function to call.".toList } : Message)
      ∈ (resolve_tool_calls registryW [unknownToolCall]).1 ∧
    resolveRunOf registryW unknownToolCall = none :=
  ⟨List.mem_singleton.mpr rfl, rfl,
   ((claude_C7 registryW [unknownToolCall] unknownToolCall
      (List.mem_singleton.mpr rfl)).1 rfl).1,
   ((claude_C7 registryW [unknownToolCall] unknownToolCall
      (List.mem_singleton.mpr rfl)).1 rfl).2⟩

/-- One `<result>` block of the `<function_results>` envelope. -/
def result_block (tool_name stdout : Text) : Text :=
  "<result>".toList ++ "<tool_name>".toList ++ tool_name ++ "</tool_name>".toList
    ++ "<stdout>".toList ++ stdout ++ "</stdout>".toList ++ "</result>".toList

theorem fc_responses_foldl_aux :
    ∀ (results : List Message) (init : Text),
      results.foldl
        (fun acc m =>
          acc ++ "<result>".toList
              ++ "<tool_name>".toList ++ m.tool_call_name.getD [] ++ "</tool_name>".toList
              ++ "<stdout>".toList ++ m.content.getD [] ++ "</stdout>".toList
              ++ "</result>".toList)
        init
      = init ++ (results.map (fun m =>
          result_block (m.tool_call_name.getD []) (m.content.getD []))).flatten := by
  intro results
  induction results with
  | nil => simp
  | cons m rest ih =>
    intro init
    simp only [List.foldl_cons, List.map_cons, List.flatten_cons]
    rw [ih]
    simp [result_block, List.append_assoc]

/-- Claim C8: the aggregated result envelope built from `N ≥ 1` executed
function calls is exactly `<function_results>` followed by one `<result>` block
per call, in execution order — each with `<tool_name>` holding the originating
call's name and `<stdout>` holding its result text — followed by
`</function_results>`. -/
theorem claude_C8 (function_calls : List FunctionCall)
    (h : 0 < function_calls.length) :
    fc_responses (run_function_calls "user".toList function_calls)
      = "<function_results>".toList
        ++ (function_calls.map (fun fc => result_block fc.name fc.result)).flatten
        ++ "</function_results>".toList := by
  unfold fc_responses run_function_calls
  rw [fc_responses_foldl_aux, List.map_map]
  rfl

/-- Executed call returning `3` for `add`. -/
def fcA : FunctionCall := { name := "add".toList, error := none, result := "3".toList }

/-- Executed call returning `8` for `mul`. -/
def fcB : FunctionCall := { name := "mul".toList, error := none, result := "8".toList }

theorem claude_C8_witness :
    0 < ([fcA, fcB] : List FunctionCall).length ∧
    fc_responses (run_function_calls "user".toList [fcA, fcB])
      = "<function_results>".toList
        ++ (([fcA, fcB] : List FunctionCall).map
              (fun fc => result_block fc.name fc.result)).flatten
        ++ "</function_results>".toList :=
  ⟨by decide, claude_C8 [fcA, fcB] (by decide)⟩
